import Mathlib

/-!
# arso-api: earthquake and weather scraping, verified against `src/arso/main.go`

A shallow embedding of `main.go`.

* Go `string` values are Lean `String`s; `[]byte(text)` is the UTF-8 encoding.
* `float64` is an abstract type `F` with a zero and a comparison, nothing else being
  assumed about it (so NaN-like values are allowed); `strconv.ParseFloat` is a parameter.
* The network (`goquery.NewDocument`, `http.Get`) and `xml.Unmarshal` are parameters.
* `crypto/md5` and `encoding/hex` are modelled after RFC 1321 and the hex table, on
  natural numbers reduced modulo `2^32`.
-/

namespace Arso

/-! ## `[]byte(text)` -/

/-- The UTF-8 encoding of one code point. -/
def utf8Char (c : Char) : List Nat :=
  let n := c.toNat
  if n < 0x80 then [n]
  else if n < 0x800 then [0xC0 + n / 64, 0x80 + n % 64]
  else if n < 0x10000 then [0xE0 + n / 4096, 0x80 + n / 64 % 64, 0x80 + n % 64]
  else [0xF0 + n / 262144, 0x80 + n / 4096 % 64, 0x80 + n / 64 % 64, 0x80 + n % 64]

/-- Go `[]byte(text)`: the bytes of a string. -/
def toBytes (text : String) : List Nat :=
  text.data.flatMap utf8Char

/-! ## `crypto/md5` (RFC 1321) -/

/-- Per-round left-rotation amounts. -/
def md5S : List Nat :=
  [7, 12, 17, 22, 7, 12, 17, 22, 7, 12, 17, 22, 7, 12, 17, 22,
   5, 9, 14, 20, 5, 9, 14, 20, 5, 9, 14, 20, 5, 9, 14, 20,
   4, 11, 16, 23, 4, 11, 16, 23, 4, 11, 16, 23, 4, 11, 16, 23,
   6, 10, 15, 21, 6, 10, 15, 21, 6, 10, 15, 21, 6, 10, 15, 21]

/-- The sine table: `floor (2^32 * |sin (i + 1)|)`. -/
def md5K : List Nat :=
  [3614090360, 3905402710, 606105819, 3250441966, 4118548399, 1200080426, 2821735955,
   4249261313, 1770035416, 2336552879, 4294925233, 2304563134, 1804603682, 4254626195,
   2792965006, 1236535329, 4129170786, 3225465664, 643717713, 3921069994, 3593408605,
   38016083, 3634488961, 3889429448, 568446438, 3275163606, 4107603335, 1163531501,
   2850285829, 4243563512, 1735328473, 2368359562, 4294588738, 2272392833, 1839030562,
   4259657740, 2763975236, 1272893353, 4139469664, 3200236656, 681279174, 3936430074,
   3572445317, 76029189, 3654602809, 3873151461, 530742520, 3299628645, 4096336452,
   1126891415, 2878612391, 4237533241, 1700485571, 2399980690, 4293915773, 2240044497,
   1873313359, 4264355552, 2734768916, 1309151649, 4149444226, 3174756917, 718787259,
   3951481745]

/-- The four 32-bit chaining words. -/
structure MD5State where
  a : Nat
  b : Nat
  c : Nat
  d : Nat
  deriving DecidableEq, Repr

/-- The initial chaining value. -/
def md5Init : MD5State :=
  ⟨0x67452301, 0xefcdab89, 0x98badcfe, 0x10325476⟩

/-- Rotate a 32-bit word left by `c` bits. -/
def rotl32 (x c : Nat) : Nat :=
  ((x <<< c) ||| (x >>> (32 - c))) % 2 ^ 32

/-- Bitwise complement of a 32-bit word. -/
def not32 (x : Nat) : Nat :=
  x ^^^ 0xffffffff

/-- The four bytes of a 32-bit word, least significant first. -/
def le32 (w : Nat) : List Nat :=
  [w % 256, w / 256 % 256, w / 65536 % 256, w / 16777216 % 256]

/-- Word `j` of a block, read least significant byte first. -/
def leWord (block : List Nat) (j : Nat) : Nat :=
  block.getD (4 * j) 0 + 256 * block.getD (4 * j + 1) 0 + 65536 * block.getD (4 * j + 2) 0
    + 16777216 * block.getD (4 * j + 3) 0

/-- One of the 64 steps of the compression function. -/
def md5Round (m : List Nat) (st : MD5State) (i : Nat) : MD5State :=
  let fg : Nat × Nat :=
    if i < 16 then ((st.b &&& st.c) ||| (not32 st.b &&& st.d), i)
    else if i < 32 then ((st.d &&& st.b) ||| (not32 st.d &&& st.c), (5 * i + 1) % 16)
    else if i < 48 then (st.b ^^^ st.c ^^^ st.d, (3 * i + 5) % 16)
    else (st.c ^^^ (st.b ||| not32 st.d), (7 * i) % 16)
  let f := (fg.1 + st.a + md5K.getD i 0 + m.getD fg.2 0) % 2 ^ 32
  ⟨st.d, (st.b + rotl32 f (md5S.getD i 0)) % 2 ^ 32, st.b, st.c⟩

/-- Compression of one 64-byte block into the chaining value. -/
def md5Block (st : MD5State) (block : List Nat) : MD5State :=
  let m := (List.range 16).map (leWord block)
  let r := (List.range 64).foldl (md5Round m) st
  ⟨(st.a + r.a) % 2 ^ 32, (st.b + r.b) % 2 ^ 32, (st.c + r.c) % 2 ^ 32, (st.d + r.d) % 2 ^ 32⟩

/-- Message padding: a `0x80` byte, zeros up to 56 modulo 64, the bit length on 8 bytes. -/
def md5Pad (msg : List Nat) : List Nat :=
  let bits := 8 * msg.length % 2 ^ 64
  msg ++ [0x80] ++ List.replicate ((119 - msg.length % 64) % 64) 0
    ++ le32 (bits % 2 ^ 32) ++ le32 (bits / 2 ^ 32)

/-- The chaining value after all blocks of the padded message. -/
def md5Final (msg : List Nat) : MD5State :=
  let p := md5Pad msg
  (List.range (p.length / 64)).foldl
    (fun st i => md5Block st ((p.drop (64 * i)).take 64)) md5Init

/-- Go `hasher.Write(msg); hasher.Sum(nil)` on a fresh `md5.New()`: the 16-byte digest. -/
def md5Sum (msg : List Nat) : List Nat :=
  let st := md5Final msg
  le32 st.a ++ le32 st.b ++ le32 st.c ++ le32 st.d

/-! ## `encoding/hex` -/

/-- The hex table `"0123456789abcdef"` of `encoding/hex`. -/
def hextable : List Char :=
  "0123456789abcdef".data

/-- Go `hex.EncodeToString`: two table characters per byte, high nibble first. -/
def EncodeToString (src : List Nat) : String :=
  ⟨src.flatMap fun v => [hextable.getD (v / 16) '0', hextable.getD (v % 16) '0']⟩

/-- Go `getMD5Hash` (main.go:51-55). -/
def getMD5Hash (text : String) : String :=
  EncodeToString (md5Sum (toBytes text))

/-! ## `strings.Contains` -/

/-- Does `sub` occur in `s` as a block of consecutive characters? -/
def hasInfix (sub : List Char) : List Char → Bool
  | [] => sub.isPrefixOf []
  | c :: s => sub.isPrefixOf (c :: s) || hasInfix sub s

/-- Go `strings.Contains(s, substr)`: `substr` is within `s`. -/
def Contains (s substr : String) : Bool :=
  hasInfix substr.data s.data

/-! ## Records (main.go:22-49) -/

/-- Go `Potres`: info about an earthquake. -/
structure Potres (F : Type) where
  Magnituda : F
  Lat : F
  Lon : F
  Datum : String
  Lokacija : String
  deriving DecidableEq, Repr

/-- Go `Postaja`: info about weather. `XMLName` is a nullable `xml.Name` (space, local). -/
structure Postaja (F : Type) where
  XMLName : Option (String × String)
  ID : String
  Title : String
  Lat : F
  Lon : F
  Altitude : F
  Issued : String
  Temp : F
  Wind : F
  WindDirection : String
  RH : F
  Pressure : F
  Sky : String
  Valid : String
  URL : String
  Auto : Bool
  deriving DecidableEq, Repr

/-! ## `ARSOPotresi` (main.go:58-81) -/

/-- A table row matched by `#glavna td.vsebina table tr`, as the texts of its cells. -/
abbrev Row := List String

/-- Go `s.Find("td:nth-child(n)").Text()`: the text of the `n`-th cell (counted from 1),
empty when the row has no such cell. -/
def cellText (s : Row) (n : Nat) : String :=
  s.getD (n - 1) ""

/-- The body of the `Each` callback of `ARSOPotresi` (main.go:67-78), as a step on the
slice `potresi`. `ParseFloat s bitSize` returns the value and the error (`none` is `nil`). -/
def potresiEach {F : Type} [Zero F] [LT F] [DecidableRel (fun a b : F => a < b)]
    (ParseFloat : String → Nat → F × Option String)
    (potresi : List (Potres F)) (s : Row) : List (Potres F) :=
  let r := ParseFloat (cellText s 4) 2
  let magnituda := r.1
  let err := r.2
  if 0 < magnituda ∧ err = none then
    let potres : Potres F :=
      { Magnituda := magnituda
        Lat := (ParseFloat (cellText s 2) 3).1
        Lon := (ParseFloat (cellText s 3) 3).1
        Lokacija := cellText s 6
        Datum := cellText s 1 }
    potresi ++ [potres]
  else
    potresi

/-- Go `ARSOPotresi`. `doc` is the outcome of `goquery.NewDocument`: `none` when the fetch
failed, otherwise the rows matched by the selector, in document order. -/
def ARSOPotresi {F : Type} [Zero F] [LT F] [DecidableRel (fun a b : F => a < b)]
    (ParseFloat : String → Nat → F × Option String)
    (doc : Option (List Row)) : List (Potres F) :=
  match doc with
  | none => []
  | some rows => rows.foldl (potresiEach ParseFloat) []

/-! ## `ARSOVreme` (main.go:84-123) -/

/-- The slice `vreme` being built, together with two traces of what the run did: the GETs
issued, each with the index of the anchor it was issued for, and the lines logged. -/
structure VremeState (F : Type) where
  vreme : List (Postaja F)
  gets : List (Nat × String)
  log : List String
  deriving DecidableEq, Repr

/-- The body of the `Each` callback of `ARSOVreme` (main.go:93-120) for anchor number `i`
whose `href` attribute is `s` (`none` when the anchor has none). `httpGet i url` is the
outcome of the `http.Get` issued for anchor `i`: `.error err` for a transport error,
otherwise the contents read from the body. `xmlUnmarshal contents` is the record `xml.Unmarshal`
leaves in a zero-valued `Postaja`. The result is `.error` when `log.Fatal` ended the
process, with the state at that moment. -/
def vremeEach {F : Type} (httpGet : Nat → String → Except String (List Nat))
    (xmlUnmarshal : List Nat → Postaja F) (i : Nat) (s : Option String)
    (st : VremeState F) : Except (VremeState F) (VremeState F) :=
  match s with
  | none => .ok st
  | some url =>
    if Contains url ".xml" && !Contains url "media" && !Contains url "_si_" then
      let url := "http://meteo.arso.gov.si/" ++ url
      let st := { st with gets := st.gets ++ [(i, url)] }
      match httpGet i url with
      | .error err => .error { st with log := st.log ++ [err] }
      | .ok contents =>
        let q := xmlUnmarshal contents
        if q.Title ≠ "" then
          let q := { q with ID := getMD5Hash q.ID }
          let q := { q with URL := "/vreme/" ++ q.ID }
          let q := { q with Auto := Contains url "observationAms" }
          .ok { st with vreme := st.vreme ++ [q] }
        else
          .ok st
    else
      .ok { st with log := st.log ++ ["Skip " ++ url] }

/-- Go `Each`: the callback on every anchor in discovery order, `i` counting from the
index of the first; nothing runs after the process ended. -/
def vremeEachFrom {F : Type} (httpGet : Nat → String → Except String (List Nat))
    (xmlUnmarshal : List Nat → Postaja F) :
    Nat → List (Option String) → VremeState F → Except (VremeState F) (VremeState F)
  | _, [], st => .ok st
  | i, s :: rest, st =>
    match vremeEach httpGet xmlUnmarshal i s st with
    | .ok st1 => vremeEachFrom httpGet xmlUnmarshal (i + 1) rest st1
    | .error st1 => .error st1

/-- What a call of `ARSOVreme` amounts to: the slice returned (`none` when the process
was terminated instead of returning), the GETs issued and the lines logged. -/
structure VremeRun (F : Type) where
  result : Option (List (Postaja F))
  gets : List (Nat × String)
  log : List String
  deriving DecidableEq, Repr

/-- Go `ARSOVreme`. `doc` is the outcome of `goquery.NewDocument` on the index page:
`none` when the fetch failed, otherwise the `href` attributes of the anchors matched by
`td:nth-child(2) > a`, in discovery order. -/
def ARSOVreme {F : Type} (httpGet : Nat → String → Except String (List Nat))
    (xmlUnmarshal : List Nat → Postaja F) (doc : Option (List (Option String))) :
    VremeRun F :=
  match doc with
  | none => ⟨some [], [], []⟩
  | some anchors =>
    match vremeEachFrom httpGet xmlUnmarshal 0 anchors ⟨[], [], []⟩ with
    | .ok st => ⟨some st.vreme, st.gets, st.log⟩
    | .error st => ⟨none, st.gets, st.log⟩

/-- The condition of main.go:97 under which an `href` is fetched rather than skipped. -/
def qualifies (url : String) : Bool :=
  Contains url ".xml" && !Contains url "media" && !Contains url "_si_"

/-- The record anchor `i` contributes to the output, if any: its `href` qualifies, the
GET succeeds and the decoded document has a title; the record is the decoded one with
the identifier hashed, the lookup URL and the automated flag set. -/
def stationOf {F : Type} (httpGet : Nat → String → Except String (List Nat))
    (xmlUnmarshal : List Nat → Postaja F) (i : Nat) (s : Option String) :
    Option (Postaja F) :=
  match s with
  | none => none
  | some href =>
    if qualifies href then
      match httpGet i ("http://meteo.arso.gov.si/" ++ href) with
      | .error _ => none
      | .ok contents =>
        if (xmlUnmarshal contents).Title = "" then none
        else some
          { xmlUnmarshal contents with
            ID := getMD5Hash (xmlUnmarshal contents).ID
            URL := "/vreme/" ++ getMD5Hash (xmlUnmarshal contents).ID
            Auto := Contains ("http://meteo.arso.gov.si/" ++ href) "observationAms" }
    else none

/-- The GET anchor `i` gives rise to, if any. -/
def getOf (i : Nat) (s : Option String) : Option (Nat × String) :=
  match s with
  | none => none
  | some href => if qualifies href then some (i, "http://meteo.arso.gov.si/" ++ href) else none

/-- The line logged for a skipped anchor, if any. -/
def skipOf (s : Option String) : Option String :=
  match s with
  | none => none
  | some href => if qualifies href then none else some ("Skip " ++ href)

/-- Does the GET for anchor `i` fail? -/
def getFails (httpGet : Nat → String → Except String (List Nat)) (i : Nat)
    (s : Option String) : Bool :=
  match s with
  | none => false
  | some href =>
    qualifies href &&
      match httpGet i ("http://meteo.arso.gov.si/" ++ href) with
      | .error _ => true
      | .ok _ => false

/-- The state a run of the callbacks ended in, whether or not the process went on. -/
def finalState {F : Type} : Except (VremeState F) (VremeState F) → VremeState F
  | .ok st => st
  | .error st => st

/-- A run of the callbacks without its log: did the process go on, the slice, the GETs. -/
def observable {F : Type} (r : Except (VremeState F) (VremeState F)) :
    Bool × List (Postaja F) × List (Nat × String) :=
  match r with
  | .ok st => (true, st.vreme, st.gets)
  | .error st => (false, st.vreme, st.gets)

/-! ## The `/vreme/:postaja` handler (main.go:146-155) -/

/-- The object handed to `c.JSON`: a station, or a `gin.H` map of strings. -/
inductive Payload (F : Type) where
  | postaja (p : Postaja F)
  | H (entries : List (String × String))
  deriving DecidableEq, Repr

/-- A response: status code and object. -/
structure Response (F : Type) where
  code : Nat
  obj : Payload F
  deriving DecidableEq, Repr

/-- The handler's loop over the list `ARSOVreme()` returned, and the 404 after it. -/
def vremeHandler {F : Type} (vreme : List (Postaja F)) (name : String) : Response F :=
  match vreme with
  | [] => ⟨404, .H [("Status", "Not found: " ++ name)]⟩
  | p :: rest => if name = p.ID then ⟨200, .postaja p⟩ else vremeHandler rest name

/-! ## A sample `float64`: exact decimals

Used to run the definitions on concrete tables. -/

/-- The decimal number `mantissa / 10 ^ scale`. -/
structure Decimal where
  mantissa : Int
  scale : Nat
  deriving DecidableEq, Repr

instance : Zero Decimal := ⟨⟨0, 0⟩⟩

instance : LT Decimal :=
  ⟨fun x y => x.mantissa * 10 ^ y.scale < y.mantissa * 10 ^ x.scale⟩

instance : DecidableRel (fun a b : Decimal => a < b) :=
  fun x y => inferInstanceAs (Decidable (x.mantissa * 10 ^ y.scale < y.mantissa * 10 ^ x.scale))

/-- The number written by a list of decimal digits. -/
def digitsVal (cs : List Char) : Nat :=
  cs.foldl (fun n c => 10 * n + (c.toNat - 48)) 0

/-- Exact reading of `[+-]digits[.digits]`; every other text is a syntax error, for which
`strconv.ParseFloat` returns the value 0. -/
def decimalParseFloat (s : String) (_bitSize : Nat) : Decimal × Option String :=
  let cs := s.data
  let neg := cs.head? = some '-'
  let body := if cs.head? = some '-' ∨ cs.head? = some '+' then cs.tail else cs
  let ip := body.takeWhile Char.isDigit
  let fp := (body.dropWhile Char.isDigit).tail
  let dot := (body.dropWhile Char.isDigit).head?
  if (dot = none ∧ ip ≠ [] ∨ dot = some '.' ∧ fp.all Char.isDigit ∧ ip ++ fp ≠ []) then
    let m : Int := digitsVal (ip ++ fp)
    (⟨if neg then -m else m, fp.length⟩, none)
  else
    (0, some "invalid syntax")

/-- The zero value of `Postaja`. -/
def zeroPostaja : Postaja Decimal :=
  { XMLName := none, ID := "", Title := "", Lat := 0, Lon := 0, Altitude := 0, Issued := "",
    Temp := 0, Wind := 0, WindDirection := "", RH := 0, Pressure := 0, Sky := "", Valid := "",
    URL := "", Auto := false }

/-- A sample decoder: the identifier is the text before the first dot, the whole text is
kept as the issue stamp, and there is a title when the contents exceed six bytes. -/
def sampleUnmarshal (contents : List Nat) : Postaja Decimal :=
  { zeroPostaja with
    ID := ⟨(contents.takeWhile (fun b => b != 46)).map Char.ofNat⟩
    Issued := ⟨contents.map Char.ofNat⟩
    Title := if 6 < contents.length then "Postaja" else "" }

/-- A sample network: a GET is answered with the part of the URL after the host followed
by the digit of the anchor's index, except that the GET issued for anchor 7 fails. -/
def sampleGet (i : Nat) (url : String) : Except String (List Nat) :=
  if i = 7 then .error "dial tcp: i/o timeout"
  else .ok ((url.data.drop 25).map Char.toNat ++ [48 + i])

/-- A sample index page: six anchors, one without href, one of the secondary language
variant, one whose document has no title, and two for the same station. -/
def samplePage : List (Option String) :=
  [some "ab.xml", none, some "ab_si_.xml", some "a.xml", some "observationAms_x.xml",
   some "ab.xml"]

/-- The stations published for the sample page. -/
def sampleVreme : List (Postaja Decimal) :=
  [{ zeroPostaja with
      ID := getMD5Hash "ab", Title := "Postaja", Issued := "ab.xml0",
      URL := "/vreme/" ++ getMD5Hash "ab" },
   { zeroPostaja with
      ID := getMD5Hash "observationAms_x", Title := "Postaja",
      Issued := "observationAms_x.xml4", URL := "/vreme/" ++ getMD5Hash "observationAms_x",
      Auto := true },
   { zeroPostaja with
      ID := getMD5Hash "ab", Title := "Postaja", Issued := "ab.xml5",
      URL := "/vreme/" ++ getMD5Hash "ab" }]

/-- A longer sample page, whose anchor 7 cannot be fetched. -/
def samplePageFailing : List (Option String) :=
  samplePage ++ [some "media.xml", some "cd.xml", some "ef.xml"]

/-- The longer sample page with one more anchor, of the secondary language variant,
behind the anchor that cannot be fetched. -/
def samplePageUnreached : List (Option String) :=
  samplePageFailing ++ [some "gh_si_.xml"]

/-- Go `strings.HasSuffix(s, suffix)`: `s` ends with `suffix`. -/
def HasSuffix (s suffix : String) : Bool :=
  suffix.data.isSuffixOf s.data

end Arso

namespace Arso

/-! ## The digest on the RFC 1321 test suite -/

theorem getMD5Hash_empty : getMD5Hash "" = "d41d8cd98f00b204e9800998ecf8427e" := by
  decide!

theorem getMD5Hash_abc : getMD5Hash "abc" = "900150983cd24fb0d6963f7d28e17f72" := by
  decide!

theorem getMD5Hash_two_blocks :
    getMD5Hash
        "12345678901234567890123456789012345678901234567890123456789012345678901234567890"
      = "57edf4a22be3c955ac49da2e2107b67a" := by
  decide!

theorem getMD5Hash_non_ascii : getMD5Hash "Šmartno" = "a863dda1782d88c428c39e6dc7cdadeb" := by
  decide!

/-! ## Substrings -/

theorem hasInfix_iff (sub s : List Char) : hasInfix sub s = true ↔ sub <:+: s := by
  induction s with
  | nil =>
    cases sub <;> simp [hasInfix, List.isPrefixOf]
  | cons c s ih =>
    rw [hasInfix, Bool.or_eq_true, ih, List.isPrefixOf_iff_prefix, List.infix_cons_iff]

theorem Contains_iff (s substr : String) : Contains s substr = true ↔ substr.data <:+: s.data :=
  hasInfix_iff _ _

/-! ## One callback of `ARSOVreme` -/

section Each

variable {F : Type} (g : Nat → String → Except String (List Nat)) (u : List Nat → Postaja F)

theorem vremeEach_none (i : Nat) (st : VremeState F) : vremeEach g u i none st = .ok st := rfl

theorem vremeEach_skip (i : Nat) (href : String) (st : VremeState F)
    (hq : qualifies href = false) :
    vremeEach g u i (some href) st = .ok { st with log := st.log ++ ["Skip " ++ href] } := by
  unfold qualifies at hq
  simp only [vremeEach, hq]
  rfl

theorem vremeEach_fetch (i : Nat) (href : String) (st : VremeState F)
    (hq : qualifies href = true) :
    vremeEach g u i (some href) st =
      match g i ("http://meteo.arso.gov.si/" ++ href) with
      | .error err =>
        .error { st with gets := st.gets ++ [(i, "http://meteo.arso.gov.si/" ++ href)]
                         log := st.log ++ [err] }
      | .ok _ =>
        .ok { st with gets := st.gets ++ [(i, "http://meteo.arso.gov.si/" ++ href)]
                      vreme := st.vreme ++ (stationOf g u i (some href)).toList } := by
  have hq2 := hq
  unfold qualifies at hq2
  simp only [vremeEach, hq2, if_true]
  cases hg : g i ("http://meteo.arso.gov.si/" ++ href) with
  | error e => rfl
  | ok c =>
    by_cases ht : (u c).Title = ""
    · simp [stationOf, hq, hg, ht]
    · simp [stationOf, hq, hg, ht]

theorem vremeEach_observable (i : Nat) (a : Option String) (st1 st2 : VremeState F)
    (hv : st1.vreme = st2.vreme) (hg : st1.gets = st2.gets) :
    observable (vremeEach g u i a st1) = observable (vremeEach g u i a st2) := by
  cases a with
  | none => simp [vremeEach_none, observable, hv, hg]
  | some href =>
    cases hq : qualifies href with
    | false => simp [vremeEach_skip g u i href _ hq, observable, hv, hg]
    | true =>
      rw [vremeEach_fetch g u i href st1 hq, vremeEach_fetch g u i href st2 hq]
      cases g i ("http://meteo.arso.gov.si/" ++ href) <;> simp [observable, hv, hg]

theorem vremeEach_ok (i : Nat) (a : Option String) (st st1 : VremeState F)
    (h : vremeEach g u i a st = .ok st1) :
    getFails g i a = false ∧ st1.vreme = st.vreme ++ (stationOf g u i a).toList
      ∧ st1.gets = st.gets ++ (getOf i a).toList ∧ st1.log = st.log ++ (skipOf a).toList := by
  cases a with
  | none =>
    rw [vremeEach_none] at h
    cases h
    simp [getFails, stationOf, getOf, skipOf]
  | some href =>
    cases hq : qualifies href with
    | false =>
      rw [vremeEach_skip g u i href _ hq] at h
      cases h
      simp [getFails, stationOf, getOf, skipOf, hq]
    | true =>
      rw [vremeEach_fetch g u i href st hq] at h
      cases hg : g i ("http://meteo.arso.gov.si/" ++ href) with
      | error e => simp [hg] at h
      | ok c =>
        simp only [hg] at h
        cases h
        simp [getFails, getOf, skipOf, hq, hg]

theorem vremeEach_error (i : Nat) (a : Option String) (st st1 : VremeState F)
    (h : vremeEach g u i a st = .error st1) :
    getFails g i a = true ∧ st1.vreme = st.vreme
      ∧ st1.gets = st.gets ++ (getOf i a).toList := by
  cases a with
  | none => rw [vremeEach_none] at h; cases h
  | some href =>
    cases hq : qualifies href with
    | false => rw [vremeEach_skip g u i href _ hq] at h; cases h
    | true =>
      rw [vremeEach_fetch g u i href st hq] at h
      cases hg : g i ("http://meteo.arso.gov.si/" ++ href) with
      | ok c => simp [hg] at h
      | error e =>
        simp only [hg] at h
        cases h
        simp [getFails, getOf, hq, hg]

/-! ## The whole loop -/

theorem vremeEachFrom_ok (l : List (Option String)) :
    ∀ (i : Nat) (st st1 : VremeState F), vremeEachFrom g u i l st = .ok st1 →
      (∀ x ∈ l.enumFrom i, getFails g x.1 x.2 = false)
      ∧ st1.vreme = st.vreme ++ (l.enumFrom i).filterMap (fun x => stationOf g u x.1 x.2)
      ∧ st1.gets = st.gets ++ (l.enumFrom i).filterMap (fun x => getOf x.1 x.2)
      ∧ st1.log = st.log ++ (l.enumFrom i).filterMap (fun x => skipOf x.2) := by
  induction l with
  | nil =>
    intro i st st1 h
    simp only [vremeEachFrom] at h
    cases h
    simp
  | cons a rest ih =>
    intro i st st1 h
    simp only [vremeEachFrom] at h
    cases hs : vremeEach g u i a st with
    | error e => simp [hs] at h
    | ok st2 =>
      simp only [hs] at h
      obtain ⟨hf, hv, hgt, hl⟩ := vremeEach_ok g u i a st st2 hs
      obtain ⟨hf2, hv2, hgt2, hl2⟩ := ih (i + 1) st2 st1 h
      refine ⟨?_, ?_, ?_, ?_⟩
      · intro x hx
        rw [List.enumFrom_cons, List.mem_cons] at hx
        rcases hx with rfl | hx
        · exact hf
        · exact hf2 x hx
      · rw [hv2, hv, List.enumFrom_cons, List.filterMap_cons]
        cases stationOf g u i a <;> simp
      · rw [hgt2, hgt, List.enumFrom_cons, List.filterMap_cons]
        cases getOf i a <;> simp
      · rw [hl2, hl, List.enumFrom_cons, List.filterMap_cons]
        cases skipOf a <;> simp

theorem vremeEachFrom_error (l : List (Option String)) :
    ∀ (i : Nat) (st st1 : VremeState F), vremeEachFrom g u i l st = .error st1 →
      ∃ x ∈ l.enumFrom i, getFails g x.1 x.2 = true := by
  induction l with
  | nil =>
    intro i st st1 h
    simp [vremeEachFrom] at h
  | cons a rest ih =>
    intro i st st1 h
    simp only [vremeEachFrom] at h
    cases hs : vremeEach g u i a st with
    | error e =>
      exact ⟨(i, a), by simp, (vremeEach_error g u i a st e hs).1⟩
    | ok st2 =>
      simp only [hs] at h
      obtain ⟨x, hx, hf⟩ := ih (i + 1) st2 st1 h
      exact ⟨x, by rw [List.enumFrom_cons]; exact List.mem_cons_of_mem _ hx, hf⟩

theorem vremeEachFrom_gets (l : List (Option String)) :
    ∀ (i : Nat) (st : VremeState F) (e : Nat × String),
      e ∈ (finalState (vremeEachFrom g u i l st)).gets →
      e ∈ st.gets ∨ ∃ x ∈ l.enumFrom i, getOf x.1 x.2 = some e := by
  induction l with
  | nil =>
    intro i st e h
    exact Or.inl (by simpa [vremeEachFrom, finalState] using h)
  | cons a rest ih =>
    intro i st e h
    simp only [vremeEachFrom] at h
    cases hs : vremeEach g u i a st with
    | error st2 =>
      simp only [hs, finalState] at h
      rw [(vremeEach_error g u i a st st2 hs).2.2, List.mem_append] at h
      rcases h with h | h
      · exact Or.inl h
      · exact Or.inr ⟨(i, a), by simp, by simpa [Option.mem_toList] using h⟩
    | ok st2 =>
      simp only [hs] at h
      rcases ih (i + 1) st2 e h with h2 | ⟨x, hx, hxe⟩
      · rw [(vremeEach_ok g u i a st st2 hs).2.2.1, List.mem_append] at h2
        rcases h2 with h2 | h2
        · exact Or.inl h2
        · exact Or.inr ⟨(i, a), by simp, by simpa [Option.mem_toList] using h2⟩
      · exact Or.inr ⟨x, by rw [List.enumFrom_cons]; exact List.mem_cons_of_mem _ hx, hxe⟩

theorem vremeEachFrom_observable (l : List (Option String)) :
    ∀ (i : Nat) (st1 st2 : VremeState F), st1.vreme = st2.vreme → st1.gets = st2.gets →
      observable (vremeEachFrom g u i l st1) = observable (vremeEachFrom g u i l st2) := by
  induction l with
  | nil =>
    intro i st1 st2 hv hg
    simp [vremeEachFrom, observable, hv, hg]
  | cons a rest ih =>
    intro i st1 st2 hv hg
    have hstep := vremeEach_observable g u i a st1 st2 hv hg
    simp only [vremeEachFrom]
    cases h1 : vremeEach g u i a st1 with
    | error e1 =>
      cases h2 : vremeEach g u i a st2 with
      | error e2 => simpa [h1, h2] using hstep
      | ok s2 => simp [h1, h2, observable] at hstep
    | ok s1 =>
      cases h2 : vremeEach g u i a st2 with
      | error e2 => simp [h1, h2, observable] at hstep
      | ok s2 =>
        simp only [h1, h2, observable, Prod.mk.injEq, true_and] at hstep
        exact ih (i + 1) s1 s2 hstep.1 hstep.2

theorem vremeEachFrom_set_none (l : List (Option String)) :
    ∀ (k i : Nat) (href : String) (st : VremeState F), l[k]? = some (some href) →
      qualifies href = false →
      observable (vremeEachFrom g u i l st)
        = observable (vremeEachFrom g u i (l.set k none) st) := by
  induction l with
  | nil =>
    intro k i href st h
    simp at h
  | cons a rest ih =>
    intro k i href st h hq
    cases k with
    | zero =>
      simp only [List.getElem?_cons_zero, Option.some.injEq] at h
      subst h
      simp only [List.set_cons_zero, vremeEachFrom, vremeEach_none,
        vremeEach_skip g u i href st hq]
      exact vremeEachFrom_observable g u rest (i + 1) _ _ rfl rfl
    | succ k =>
      simp only [List.getElem?_cons_succ] at h
      simp only [List.set_cons_succ, vremeEachFrom]
      cases hs : vremeEach g u i a st with
      | error e => rfl
      | ok s1 => exact ih k (i + 1) href s1 h hq

theorem vremeEach_log_mono (i : Nat) (a : Option String) (st : VremeState F) (m : String)
    (hm : m ∈ st.log) : m ∈ (finalState (vremeEach g u i a st)).log := by
  cases a with
  | none => simpa [vremeEach_none, finalState] using hm
  | some href =>
    cases hq : qualifies href with
    | false =>
      rw [vremeEach_skip g u i href st hq]
      simp [finalState, hm]
    | true =>
      rw [vremeEach_fetch g u i href st hq]
      cases g i ("http://meteo.arso.gov.si/" ++ href) <;> simp [finalState, hm]

theorem vremeEachFrom_log_mono (l : List (Option String)) :
    ∀ (i : Nat) (st : VremeState F) (m : String), m ∈ st.log →
      m ∈ (finalState (vremeEachFrom g u i l st)).log := by
  induction l with
  | nil =>
    intro i st m hm
    simpa [vremeEachFrom, finalState] using hm
  | cons a rest ih =>
    intro i st m hm
    have hstep := vremeEach_log_mono g u i a st m hm
    simp only [vremeEachFrom]
    cases hs : vremeEach g u i a st with
    | error st1 => simpa [hs, finalState] using hstep
    | ok st1 =>
      rw [hs] at hstep
      exact ih (i + 1) st1 m hstep

theorem vremeEachFrom_skip_logged (l : List (Option String)) :
    ∀ (k i : Nat) (href : String) (st : VremeState F), l[k]? = some (some href) →
      qualifies href = false →
      (∀ j : Nat, j < k → ∀ a : Option String, l[j]? = some a →
        getFails g (i + j) a = false) →
      "Skip " ++ href ∈ (finalState (vremeEachFrom g u i l st)).log := by
  induction l with
  | nil =>
    intro k i href st h
    simp at h
  | cons a rest ih =>
    intro k i href st h hq hreach
    cases k with
    | zero =>
      simp only [List.getElem?_cons_zero, Option.some.injEq] at h
      subst h
      simp only [vremeEachFrom, vremeEach_skip g u i href st hq]
      exact vremeEachFrom_log_mono g u rest (i + 1) _ _ (by simp)
    | succ k =>
      rw [List.getElem?_cons_succ] at h
      have h0 : getFails g i a = false := by
        simpa using hreach 0 (Nat.succ_pos k) a List.getElem?_cons_zero
      simp only [vremeEachFrom]
      cases hs : vremeEach g u i a st with
      | error st1 =>
        rw [(vremeEach_error g u i a st st1 hs).1] at h0
        cases h0
      | ok st1 =>
        refine ih k (i + 1) href st1 h hq ?_
        intro j hj b hb
        have := hreach (j + 1) (Nat.succ_lt_succ hj) b
          (by rw [List.getElem?_cons_succ]; exact hb)
        rwa [show i + (j + 1) = i + 1 + j by omega] at this

end Each

/-! ## `ARSOPotresi` -/

section Potresi

variable {F : Type} [Zero F] [LT F] [DecidableRel (fun a b : F => a < b)]
  (PF : String → Nat → F × Option String)

theorem potresi_foldl (rows : List Row) :
    ∀ acc : List (Potres F), rows.foldl (potresiEach PF) acc
      = acc ++ (rows.filter (fun s =>
            decide ((PF (cellText s 4) 2).2 = none ∧ 0 < (PF (cellText s 4) 2).1))).map
          (fun s =>
            { Magnituda := (PF (cellText s 4) 2).1
              Lat := (PF (cellText s 2) 3).1
              Lon := (PF (cellText s 3) 3).1
              Datum := cellText s 1
              Lokacija := cellText s 6 }) := by
  induction rows with
  | nil => intro acc; simp
  | cons s rest ih =>
    intro acc
    rw [List.foldl_cons, ih]
    by_cases h : (PF (cellText s 4) 2).2 = none ∧ 0 < (PF (cellText s 4) 2).1
    · have h2 : 0 < (PF (cellText s 4) 2).1 ∧ (PF (cellText s 4) 2).2 = none := ⟨h.2, h.1⟩
      simp [potresiEach, h, h2]
    · have h2 : ¬ (0 < (PF (cellText s 4) 2).1 ∧ (PF (cellText s 4) 2).2 = none) :=
        fun c => h ⟨c.2, c.1⟩
      simp [potresiEach, h, h2]

/-- C1: the output of `ARSOPotresi` on a fetched table is the order-preserving filter of
its rows by "the text of the 4th cell parses without error to a value above 0", each kept
row giving one record. -/
theorem ARSOPotresi_filter (rows : List Row) :
    ARSOPotresi PF (some rows)
      = (rows.filter (fun s =>
            decide ((PF (cellText s 4) 2).2 = none ∧ 0 < (PF (cellText s 4) 2).1))).map
          (fun s =>
            { Magnituda := (PF (cellText s 4) 2).1
              Lat := (PF (cellText s 2) 3).1
              Lon := (PF (cellText s 3) 3).1
              Datum := cellText s 1
              Lokacija := cellText s 6 }) := by
  simpa [ARSOPotresi] using potresi_foldl PF rows []

end Potresi

section PotresiRecord

variable {F : Type} [Zero F] [LT F] [DecidableRel (fun a b : F => a < b)]
  (PF : String → Nat → F × Option String)

/-- C2, as the code has it: a record is in the output exactly for the rows whose 4th cell
parses without error to a value above 0, and is built from the cells 1 (Datum, verbatim),
2 (Lat, parsed), 3 (Lon, parsed), 4 (Magnituda, parsed) and 6 (Lokacija, verbatim, empty
when the row has fewer than six cells). A row of at least six cells gives the record with
the text of the sixth cell as Lokacija, the five-cell row gives a record with an empty
Lokacija, and a row whose magnitude cell is "0" gives no record. -/
theorem ARSOPotresi_record (rows : List Row) (d la lo mg x loc : String) (more : List String)
    (hm : (PF mg 2).2 = none) (hpos : 0 < (PF mg 2).1) (hz : ¬ 0 < (PF "0" 2).1) :
    (∀ r, r ∈ ARSOPotresi PF (some rows) ↔
        ∃ s ∈ rows, (PF (s.getD 3 "") 2).2 = none ∧ 0 < (PF (s.getD 3 "") 2).1 ∧
          r = { Magnituda := (PF (s.getD 3 "") 2).1
                Lat := (PF (s.getD 1 "") 3).1
                Lon := (PF (s.getD 2 "") 3).1
                Datum := s.getD 0 ""
                Lokacija := s.getD 5 "" })
    ∧ ARSOPotresi PF (some [d :: la :: lo :: mg :: x :: loc :: more])
        = [{ Magnituda := (PF mg 2).1, Lat := (PF la 3).1, Lon := (PF lo 3).1,
             Datum := d, Lokacija := loc }]
    ∧ ARSOPotresi PF (some [[d, la, lo, mg, loc]])
        = [{ Magnituda := (PF mg 2).1, Lat := (PF la 3).1, Lon := (PF lo 3).1,
             Datum := d, Lokacija := "" }]
    ∧ ARSOPotresi PF (some [d :: la :: lo :: "0" :: more]) = [] := by
  refine ⟨?_, ?_, ?_, ?_⟩
  · intro r
    have hfold : ARSOPotresi PF (some rows) = rows.foldl (potresiEach PF) [] := rfl
    rw [hfold, potresi_foldl PF rows []]
    simp only [List.nil_append, List.mem_map, List.mem_filter, decide_eq_true_eq, cellText]
    constructor
    · rintro ⟨s, ⟨hs, h1, h2⟩, rfl⟩
      exact ⟨s, hs, h1, h2, rfl⟩
    · rintro ⟨s, hs, h1, h2, rfl⟩
      exact ⟨s, ⟨hs, h1, h2⟩, rfl⟩
  · simp [ARSOPotresi, potresiEach, cellText, hm, hpos]
  · simp [ARSOPotresi, potresiEach, cellText, hm, hpos]
  · simp [ARSOPotresi, potresiEach, cellText, hz]

end PotresiRecord

/-- C2, an instance: the six-cell row of the 2.3 earthquake near Ljubljana. -/
theorem ARSOPotresi_record_witness :
    (decimalParseFloat "2.3" 2).1 = ⟨23, 1⟩
    ∧ ARSOPotresi decimalParseFloat
        (some [["2024-01-01", "46.1", "14.5", "2.3", "IV", "Ljubljana"]])
        = [{ Magnituda := (decimalParseFloat "2.3" 2).1
             Lat := (decimalParseFloat "46.1" 3).1
             Lon := (decimalParseFloat "14.5" 3).1
             Datum := "2024-01-01", Lokacija := "Ljubljana" }]
    ∧ ARSOPotresi decimalParseFloat (some [["2024-01-02", "46.1", "14.5", "0"]]) = [] :=
  have h := ARSOPotresi_record decimalParseFloat [] "2024-01-01" "46.1" "14.5" "2.3" "IV"
    "Ljubljana" [] (by decide) (by decide) (by decide)
  have h0 := ARSOPotresi_record decimalParseFloat [] "2024-01-02" "46.1" "14.5" "2.3" "IV"
    "Ljubljana" [] (by decide) (by decide) (by decide)
  ⟨by decide, h.2.1, h0.2.2.2⟩

/-- C2, as the spec words it, fails: the five-cell row has no sixth cell, so its record
has an empty Lokacija and the record with Lokacija "Ljubljana" is not in the output. -/
theorem ARSOPotresi_five_cells :
    ARSOPotresi decimalParseFloat (some [["2024-01-01", "46.1", "14.5", "2.3", "Ljubljana"]])
      = [{ Magnituda := ⟨23, 1⟩, Lat := ⟨461, 1⟩, Lon := ⟨145, 1⟩, Datum := "2024-01-01",
           Lokacija := "" }]
    ∧ ({ Magnituda := ⟨23, 1⟩, Lat := ⟨461, 1⟩, Lon := ⟨145, 1⟩, Datum := "2024-01-01",
         Lokacija := "Ljubljana" } : Potres Decimal)
      ∉ ARSOPotresi decimalParseFloat
          (some [["2024-01-01", "46.1", "14.5", "2.3", "Ljubljana"]]) := by
  decide

/-! ## `getMD5Hash` -/

theorem md5Sum_length (msg : List Nat) : (md5Sum msg).length = 16 := by
  simp [md5Sum, le32]

theorem md5Sum_lt (msg : List Nat) : ∀ b ∈ md5Sum msg, b < 256 := by
  intro b hb
  simp only [md5Sum, le32, List.cons_append, List.nil_append, List.mem_cons,
    List.mem_singleton] at hb
  rcases hb with h | h | h | h | h | h | h | h | h | h | h | h | h | h | h | h | h <;>
    first
      | (subst h; exact Nat.mod_lt _ (by norm_num))
      | (simp at h)

theorem hextable_getD (n : Nat) (h : n < 16) :
    ('0' ≤ hextable.getD n '0' ∧ hextable.getD n '0' ≤ '9')
      ∨ ('a' ≤ hextable.getD n '0' ∧ hextable.getD n '0' ≤ 'f') := by
  interval_cases n <;> decide

theorem EncodeToString_length (src : List Nat) :
    (EncodeToString src).length = 2 * src.length := by
  unfold EncodeToString
  rw [String.length]
  induction src with
  | nil => rfl
  | cons v rest ih =>
    simp only [List.flatMap_cons, List.length_append, List.length_cons, List.length_nil, ih]
    omega

theorem EncodeToString_chars (src : List Nat) (hsrc : ∀ b ∈ src, b < 256) :
    ∀ c ∈ (EncodeToString src).data,
      ('0' ≤ c ∧ c ≤ '9') ∨ ('a' ≤ c ∧ c ≤ 'f') := by
  intro c hc
  simp only [EncodeToString, List.mem_flatMap, List.mem_cons, List.mem_singleton,
    List.not_mem_nil, or_false] at hc
  obtain ⟨v, hv, rfl | rfl⟩ := hc
  · exact hextable_getD _ (by have := hsrc v hv; omega)
  · exact hextable_getD _ (Nat.mod_lt _ (by norm_num))

/-- C6: `getMD5Hash` is a function of its input alone (equal inputs give equal tokens), and
the token is the hex encoding of a 16-byte digest: 32 characters, each in 0-9 or a-f. -/
theorem getMD5Hash_fixed_length (text : String) :
    (∀ text2 : String, text2 = text → getMD5Hash text2 = getMD5Hash text)
    ∧ getMD5Hash text = EncodeToString (md5Sum (toBytes text))
    ∧ (md5Sum (toBytes text)).length = 16
    ∧ (getMD5Hash text).length = 32
    ∧ (∀ c ∈ (getMD5Hash text).data, ('0' ≤ c ∧ c ≤ '9') ∨ ('a' ≤ c ∧ c ≤ 'f'))
    ∧ (∀ msg : List Nat, (md5Sum msg).length = 16
        ∧ (EncodeToString (md5Sum msg)).length = 32) := by
  refine ⟨fun _ h => by rw [h], rfl, md5Sum_length _, ?_, ?_, ?_⟩
  · rw [getMD5Hash, EncodeToString_length, md5Sum_length]
  · exact EncodeToString_chars _ (md5Sum_lt _)
  · intro msg
    exact ⟨md5Sum_length _, by rw [EncodeToString_length, md5Sum_length]⟩

/-- C6, an instance: the token of the identifier "LJUBL-ANA_BEZIGRAD". -/
theorem getMD5Hash_fixed_length_witness :
    getMD5Hash "LJUBL-ANA_BEZIGRAD" = "ea46ed803ff758b43f31777188e57ba5"
    ∧ (getMD5Hash "LJUBL-ANA_BEZIGRAD").length = 32 :=
  ⟨by decide!, (getMD5Hash_fixed_length "LJUBL-ANA_BEZIGRAD").2.2.2.1⟩

/-! ## Fetch failures of the index pages -/

/-- C8: when the fetch of the source page fails `ARSOPotresi` returns the empty slice, and
when the fetch of the station index fails `ARSOVreme` returns the empty slice, having
issued no GET; both return normally. -/
theorem fetch_failure_empty {F : Type} [Zero F] [LT F] [DecidableRel (fun a b : F => a < b)]
    (PF : String → Nat → F × Option String)
    (g : Nat → String → Except String (List Nat)) (u : List Nat → Postaja F) :
    ARSOPotresi PF none = []
    ∧ (ARSOVreme g u none).result = some []
    ∧ (ARSOVreme g u none).gets = [] :=
  ⟨rfl, rfl, rfl⟩

/-! ## `ARSOVreme` as a whole -/

section Vreme

variable {F : Type} (g : Nat → String → Except String (List Nat)) (u : List Nat → Postaja F)

theorem ARSOVreme_observable (l : List (Option String)) :
    (ARSOVreme g u (some l)).result
        = (if (observable (vremeEachFrom g u 0 l ⟨[], [], []⟩)).1
            then some (observable (vremeEachFrom g u 0 l ⟨[], [], []⟩)).2.1 else none)
    ∧ (ARSOVreme g u (some l)).gets = (observable (vremeEachFrom g u 0 l ⟨[], [], []⟩)).2.2
    ∧ (ARSOVreme g u (some l)).gets = (finalState (vremeEachFrom g u 0 l ⟨[], [], []⟩)).gets := by
  cases hr : vremeEachFrom g u 0 l ⟨[], [], []⟩ <;> simp [ARSOVreme, hr, observable, finalState]

theorem ARSOVreme_log (l : List (Option String)) :
    (ARSOVreme g u (some l)).log = (finalState (vremeEachFrom g u 0 l ⟨[], [], []⟩)).log := by
  cases hr : vremeEachFrom g u 0 l ⟨[], [], []⟩ <;> simp [ARSOVreme, hr, finalState]

theorem ARSOVreme_result_some (l : List (Option String)) (L : List (Postaja F))
    (h : (ARSOVreme g u (some l)).result = some L) :
    (∀ x ∈ l.enum, getFails g x.1 x.2 = false)
    ∧ L = l.enum.filterMap (fun x => stationOf g u x.1 x.2)
    ∧ (ARSOVreme g u (some l)).gets = l.enum.filterMap (fun x => getOf x.1 x.2)
    ∧ (ARSOVreme g u (some l)).log = l.enum.filterMap (fun x => skipOf x.2) := by
  cases hr : vremeEachFrom g u 0 l ⟨[], [], []⟩ with
  | error e => simp [ARSOVreme, hr] at h
  | ok st =>
    simp only [ARSOVreme, hr, Option.some.injEq] at h
    obtain ⟨h1, h2, h3, h4⟩ := vremeEachFrom_ok g u l 0 _ st hr
    subst h
    exact ⟨h1, by simpa [List.enum] using h2, by simpa [ARSOVreme, hr, List.enum] using h3,
      by simpa [ARSOVreme, hr, List.enum] using h4⟩

theorem ARSOVreme_result_none (l : List (Option String))
    (h : (ARSOVreme g u (some l)).result = none) :
    ∃ x ∈ l.enum, getFails g x.1 x.2 = true := by
  unfold ARSOVreme at h
  cases hr : vremeEachFrom g u 0 l ⟨[], [], []⟩ with
  | error e => exact vremeEachFrom_error g u l 0 _ e hr
  | ok st => simp [hr] at h

theorem getFails_iff (i : Nat) (a : Option String) :
    getFails g i a = true ↔ ∃ href e, a = some href ∧ qualifies href = true
      ∧ g i ("http://meteo.arso.gov.si/" ++ href) = .error e := by
  cases a with
  | none => simp [getFails]
  | some href =>
    cases hg : g i ("http://meteo.arso.gov.si/" ++ href) <;> simp [getFails, hg]

theorem getOf_eq_some (i : Nat) (a : Option String) (e : Nat × String)
    (h : getOf i a = some e) :
    ∃ href, a = some href ∧ qualifies href = true
      ∧ e = (i, "http://meteo.arso.gov.si/" ++ href) := by
  cases a with
  | none => simp [getOf] at h
  | some href =>
    cases hq : qualifies href with
    | false => simp [getOf, hq] at h
    | true =>
      simp only [getOf, hq, if_true, Option.some.injEq] at h
      exact ⟨href, rfl, hq, h.symm⟩

theorem stationOf_eq_some (i : Nat) (a : Option String) (p : Postaja F)
    (h : stationOf g u i a = some p) :
    ∃ href c, a = some href ∧ qualifies href = true
      ∧ g i ("http://meteo.arso.gov.si/" ++ href) = .ok c ∧ (u c).Title ≠ ""
      ∧ p = { u c with
              ID := getMD5Hash (u c).ID
              URL := "/vreme/" ++ getMD5Hash (u c).ID
              Auto := Contains ("http://meteo.arso.gov.si/" ++ href) "observationAms" } := by
  cases a with
  | none => simp [stationOf] at h
  | some href =>
    cases hq : qualifies href with
    | false => simp [stationOf, hq] at h
    | true =>
      cases hg : g i ("http://meteo.arso.gov.si/" ++ href) with
      | error e => simp [stationOf, hq, hg] at h
      | ok c =>
        by_cases ht : (u c).Title = ""
        · simp [stationOf, hq, hg, ht] at h
        · simp only [stationOf, hq, hg, ht, if_true, if_false, Option.some.injEq] at h
          exact ⟨href, c, rfl, hq, hg, ht, h.symm⟩

theorem ARSOVreme_mem (doc : Option (List (Option String))) (L : List (Postaja F))
    (h : (ARSOVreme g u doc).result = some L) (p : Postaja F) (hp : p ∈ L) :
    ∃ l i href c, doc = some l ∧ l[i]? = some (some href) ∧ qualifies href = true
      ∧ g i ("http://meteo.arso.gov.si/" ++ href) = .ok c ∧ (u c).Title ≠ ""
      ∧ p = { u c with
              ID := getMD5Hash (u c).ID
              URL := "/vreme/" ++ getMD5Hash (u c).ID
              Auto := Contains ("http://meteo.arso.gov.si/" ++ href) "observationAms" } := by
  cases doc with
  | none =>
    simp only [ARSOVreme, Option.some.injEq] at h
    subst h
    simp at hp
  | some l =>
    obtain ⟨_, hL, _, _⟩ := ARSOVreme_result_some g u l L h
    rw [hL, List.mem_filterMap] at hp
    obtain ⟨x, hx, hs⟩ := hp
    obtain ⟨href, c, ha, hq, hg, ht, hpe⟩ := stationOf_eq_some g u x.1 x.2 p hs
    rw [List.mem_enum_iff_getElem?, ha] at hx
    exact ⟨l, x.1, href, c, rfl, hx, hq, hg, ht, hpe⟩

end Vreme

section VremeClaims

variable {F : Type} (g : Nat → String → Except String (List Nat)) (u : List Nat → Postaja F)

/-- C3, as the code has it: a discovered link whose href does not contain ".xml", or
contains "media", or contains "_si_", gets no GET and contributes nothing: the list
returned and the GETs issued are those of the same page with that anchor left without an
href. The link is logged as skipped as soon as the run reaches it, that is, whenever no
qualifying link before it fails its GET, whatever happens to the links after it; in
particular it is logged whenever the run returns. -/
theorem skipped_link_not_fetched (l : List (Option String)) (i : Nat) (href : String)
    (hl : l[i]? = some (some href))
    (hskip : Contains href ".xml" = false ∨ Contains href "media" = true
      ∨ Contains href "_si_" = true) :
    (∀ url, (i, url) ∉ (ARSOVreme g u (some l)).gets)
    ∧ (ARSOVreme g u (some l)).result = (ARSOVreme g u (some (l.set i none))).result
    ∧ (ARSOVreme g u (some l)).gets = (ARSOVreme g u (some (l.set i none))).gets
    ∧ ((∀ (j : Nat) (href2 e : String), j < i → l[j]? = some (some href2) →
          qualifies href2 = true →
          g j ("http://meteo.arso.gov.si/" ++ href2) ≠ .error e) →
        "Skip " ++ href ∈ (ARSOVreme g u (some l)).log)
    ∧ ((ARSOVreme g u (some l)).result ≠ none →
        "Skip " ++ href ∈ (ARSOVreme g u (some l)).log) := by
  have hq : qualifies href = false := by
    unfold qualifies
    rcases hskip with h | h | h <;> simp [h]
  have hobs := vremeEachFrom_set_none g u l i 0 href ⟨[], [], []⟩ hl hq
  refine ⟨?_, ?_, ?_, ?_, ?_⟩
  · intro url hmem
    rw [(ARSOVreme_observable g u l).2.2] at hmem
    rcases vremeEachFrom_gets g u l 0 _ _ hmem with h | ⟨x, hx, hxe⟩
    · simp at h
    · obtain ⟨href2, ha, hq2, he⟩ := getOf_eq_some x.1 x.2 _ hxe
      have hx2 : l[x.1]? = some x.2 := List.mem_enum_iff_getElem?.mp hx
      have hi : i = x.1 := congrArg Prod.fst he
      rw [← hi, hl, ha] at hx2
      simp only [Option.some.injEq] at hx2
      rw [hx2, hq2] at hq
      cases hq
  · rw [(ARSOVreme_observable g u l).1, (ARSOVreme_observable g u (l.set i none)).1, hobs]
  · rw [(ARSOVreme_observable g u l).2.1, (ARSOVreme_observable g u (l.set i none)).2.1, hobs]
  · intro hreach
    rw [ARSOVreme_log]
    refine vremeEachFrom_skip_logged g u l i 0 href _ hl hq ?_
    intro j hj a ha
    rw [Nat.zero_add]
    cases hf : getFails g j a with
    | false => rfl
    | true =>
      obtain ⟨href2, e, hae, hq2, hg⟩ := (getFails_iff g j a).mp hf
      rw [hae] at ha
      exact absurd hg (hreach j href2 e hj ha hq2)
  · intro hne
    cases hr : (ARSOVreme g u (some l)).result with
    | none => exact absurd hr hne
    | some L =>
      rw [(ARSOVreme_result_some g u l L hr).2.2.2, List.mem_filterMap]
      exact ⟨(i, some href), List.mem_enum_iff_getElem?.mpr hl, by simp [skipOf, hq]⟩

/-- C5: when every qualifying link is fetched successfully, the list returned holds, in
discovery order, one record per qualifying link whose decoded document has a non-empty
Title, namely the decoded record with ID replaced by its hash, URL set to "/vreme/"
followed by the hashed ID, and Auto telling whether the resolved URL contains
"observationAms"; a document with an empty Title gives no record. -/
theorem ARSOVreme_all_fetched (l : List (Option String))
    (hall : ∀ i href, l[i]? = some (some href) → qualifies href = true →
      ∃ c, g i ("http://meteo.arso.gov.si/" ++ href) = .ok c) :
    (ARSOVreme g u (some l)).result
        = some (l.enum.filterMap (fun x => stationOf g u x.1 x.2))
    ∧ (ARSOVreme g u (some l)).gets
        = (l.enum.filter (fun x => (x.2.map qualifies).getD false)).map
            (fun x => (x.1, "http://meteo.arso.gov.si/" ++ x.2.getD ""))
    ∧ (∀ i href c, qualifies href = true →
        g i ("http://meteo.arso.gov.si/" ++ href) = .ok c →
        stationOf g u i (some href) =
          if (u c).Title = "" then none
          else some { u c with
                      ID := getMD5Hash (u c).ID
                      URL := "/vreme/" ++ getMD5Hash (u c).ID
                      Auto := Contains ("http://meteo.arso.gov.si/" ++ href)
                        "observationAms" })
    ∧ (∀ i href, qualifies href = false → stationOf g u i (some href) = none)
    ∧ (∀ i, stationOf g u i none = none) := by
  have hres : ∃ L, (ARSOVreme g u (some l)).result = some L := by
    cases hr : (ARSOVreme g u (some l)).result with
    | some L => exact ⟨L, rfl⟩
    | none =>
      obtain ⟨x, hx, hf⟩ := ARSOVreme_result_none g u l hr
      obtain ⟨href, e, ha, hq, hg⟩ := (getFails_iff g x.1 x.2).mp hf
      have hx2 : l[x.1]? = some x.2 := List.mem_enum_iff_getElem?.mp hx
      rw [ha] at hx2
      obtain ⟨c, hc⟩ := hall x.1 href hx2 hq
      rw [hc] at hg
      cases hg
  obtain ⟨L, hL⟩ := hres
  obtain ⟨_, h2, h3, _⟩ := ARSOVreme_result_some g u l L hL
  refine ⟨by rw [hL, h2], ?_, ?_, ?_, ?_⟩
  · rw [h3]
    generalize l.enum = xs
    induction xs with
    | nil => rfl
    | cons x rest ih =>
      obtain ⟨k, a⟩ := x
      rw [List.filterMap_cons, ih]
      cases a with
      | none => simp [getOf]
      | some href =>
        cases hq : qualifies href <;> simp [getOf, hq]
  · intro i href c hq hg
    by_cases ht : (u c).Title = "" <;> simp [stationOf, hq, hg, ht]
  · intro i href hq
    simp [stationOf, hq]
  · intro i
    rfl

/-- C7: the run is fatal (the process is terminated and no list is returned) exactly when
the GET of some link that passes the skip filter fails; every GET issued is for a link
that passes the filter. -/
theorem ARSOVreme_fatal_iff (l : List (Option String)) :
    ((ARSOVreme g u (some l)).result = none ↔
      ∃ i href e, l[i]? = some (some href) ∧ qualifies href = true
        ∧ g i ("http://meteo.arso.gov.si/" ++ href) = .error e)
    ∧ (∀ i url, (i, url) ∈ (ARSOVreme g u (some l)).gets →
        ∃ href, l[i]? = some (some href) ∧ qualifies href = true
          ∧ url = "http://meteo.arso.gov.si/" ++ href) := by
  refine ⟨⟨?_, ?_⟩, ?_⟩
  · intro h
    obtain ⟨x, hx, hf⟩ := ARSOVreme_result_none g u l h
    obtain ⟨href, e, ha, hq, hg⟩ := (getFails_iff g x.1 x.2).mp hf
    have hx2 : l[x.1]? = some x.2 := List.mem_enum_iff_getElem?.mp hx
    rw [ha] at hx2
    exact ⟨x.1, href, e, hx2, hq, hg⟩
  · rintro ⟨i, href, e, hl, hq, hg⟩
    cases hr : (ARSOVreme g u (some l)).result with
    | none => rfl
    | some L =>
      have hno := (ARSOVreme_result_some g u l L hr).1 (i, some href)
        (List.mem_enum_iff_getElem?.mpr hl)
      have hyes : getFails g i (some href) = true :=
        (getFails_iff g i (some href)).mpr ⟨href, e, rfl, hq, hg⟩
      rw [hyes] at hno
      cases hno
  · intro i url hmem
    rw [(ARSOVreme_observable g u l).2.2] at hmem
    rcases vremeEachFrom_gets g u l 0 _ _ hmem with h | ⟨x, hx, hxe⟩
    · simp at h
    · obtain ⟨href, ha, hq, he⟩ := getOf_eq_some x.1 x.2 _ hxe
      have hx2 : l[x.1]? = some x.2 := List.mem_enum_iff_getElem?.mp hx
      have hi : i = x.1 := congrArg Prod.fst he
      have hu : url = "http://meteo.arso.gov.si/" ++ href := congrArg Prod.snd he
      rw [← hi, ha] at hx2
      exact ⟨href, hx2, hq, hu⟩

end VremeClaims

/-! ## The lookup handler -/

section Handler

variable {F : Type}

theorem vremeHandler_not_found (L : List (Postaja F)) (name : String)
    (h : ∀ p ∈ L, p.ID ≠ name) :
    vremeHandler L name = ⟨404, .H [("Status", "Not found: " ++ name)]⟩ := by
  induction L with
  | nil => rfl
  | cons p rest ih =>
    have hp : ¬ name = p.ID := fun e => h p (List.mem_cons_self _ _) e.symm
    rw [vremeHandler, if_neg hp]
    exact ih (fun q hq => h q (List.mem_cons_of_mem _ hq))

theorem vremeHandler_first (L : List (Postaja F)) (name : String) :
    ∀ (k : Nat) (p : Postaja F), L[k]? = some p → p.ID = name →
      (∀ j : Nat, j < k → ∀ x : Postaja F, L[j]? = some x → x.ID ≠ name) →
      vremeHandler L name = ⟨200, .postaja p⟩ := by
  induction L with
  | nil => intro k p h; simp at h
  | cons q rest ih =>
    intro k p hk hid hfirst
    cases k with
    | zero =>
      simp only [List.getElem?_cons_zero, Option.some.injEq] at hk
      subst hk
      rw [vremeHandler, if_pos hid.symm]
    | succ k =>
      have hq : ¬ name = q.ID :=
        fun e => hfirst 0 (Nat.succ_pos k) q (List.getElem?_cons_zero) e.symm
      rw [vremeHandler, if_neg hq]
      rw [List.getElem?_cons_succ] at hk
      exact ih k p hk hid
        (fun j hj x hx => hfirst (j + 1) (Nat.succ_lt_succ hj) x
          (by rw [List.getElem?_cons_succ]; exact hx))

theorem exists_first (L : List (Postaja F)) (name : String) (h : ∃ p ∈ L, p.ID = name) :
    ∃ (k : Nat) (p : Postaja F), L[k]? = some p ∧ p.ID = name ∧ ∀ j : Nat, j < k → ∀ x : Postaja F, L[j]? = some x → x.ID ≠ name := by
  induction L with
  | nil => obtain ⟨p, hp, _⟩ := h; cases hp
  | cons q rest ih =>
    by_cases hq : q.ID = name
    · exact ⟨0, q, List.getElem?_cons_zero, hq, fun j hj => absurd hj (Nat.not_lt_zero j)⟩
    · obtain ⟨p, hp, hid⟩ := h
      have hp2 : p ∈ rest := by
        rcases List.mem_cons.mp hp with rfl | hp2
        · exact absurd hid hq
        · exact hp2
      obtain ⟨k, p1, hk, hid1, hfirst⟩ := ih ⟨p, hp2, hid⟩
      refine ⟨k + 1, p1, by rw [List.getElem?_cons_succ]; exact hk, hid1, ?_⟩
      intro j hj x hx
      cases j with
      | zero =>
        simp only [List.getElem?_cons_zero, Option.some.injEq] at hx
        subst hx
        exact hq
      | succ j =>
        rw [List.getElem?_cons_succ] at hx
        exact hfirst j (Nat.lt_of_succ_lt_succ hj) x hx

theorem Contains_not_found (name : String) : Contains ("Not found: " ++ name) name = true := by
  rw [Contains_iff, String.data_append]
  exact (List.suffix_append _ _).isInfix

end Handler

section HandlerClaims

variable {F : Type} (g : Nat → String → Except String (List Nat)) (u : List Nat → Postaja F)

/-- C4: over a list returned by `ARSOVreme`, the handler answers 200 with a station of the
list whose raw identifier hashes to `id` when there is one (the only one, when just one
station has that hashed identifier), answers 404 with the payload
"Status": "Not found: " followed by `id` otherwise, and answers 404 exactly when no station
of the list has ID equal to `id`. -/
theorem vreme_lookup (doc : Option (List (Option String))) (L : List (Postaja F))
    (id : String) (h : (ARSOVreme g u doc).result = some L) :
    ((∃ p ∈ L, p.ID = id) →
      ∃ p ∈ L, vremeHandler L id = ⟨200, .postaja p⟩ ∧ p.ID = id
        ∧ (∀ p2 ∈ L, (∀ p3 ∈ L, p3.ID = id → p3 = p2) → p = p2)
        ∧ ∃ l i href c, doc = some l ∧ l[i]? = some (some href)
            ∧ g i ("http://meteo.arso.gov.si/" ++ href) = .ok c
            ∧ getMD5Hash (u c).ID = id
            ∧ p = { u c with
                    ID := getMD5Hash (u c).ID
                    URL := "/vreme/" ++ getMD5Hash (u c).ID
                    Auto := Contains ("http://meteo.arso.gov.si/" ++ href)
                      "observationAms" })
    ∧ ((∀ p ∈ L, p.ID ≠ id) →
        vremeHandler L id = ⟨404, .H [("Status", "Not found: " ++ id)]⟩)
    ∧ ((vremeHandler L id).code = 404 ↔ ∀ p ∈ L, p.ID ≠ id)
    ∧ Contains ("Not found: " ++ id) id = true := by
  have hfound : (∃ p ∈ L, p.ID = id) →
      ∃ p ∈ L, vremeHandler L id = ⟨200, .postaja p⟩ ∧ p.ID = id := by
    intro hex
    obtain ⟨k, p, hk, hid, hfirst⟩ := exists_first L id hex
    exact ⟨p, List.mem_iff_getElem?.mpr ⟨k, hk⟩, vremeHandler_first L id k p hk hid hfirst, hid⟩
  refine ⟨?_, vremeHandler_not_found L id, ⟨?_, ?_⟩, Contains_not_found id⟩
  · intro hex
    obtain ⟨p, hp, hresp, hid⟩ := hfound hex
    refine ⟨p, hp, hresp, hid, fun p2 _ huniq => huniq p hp hid, ?_⟩
    obtain ⟨l, i, href, c, hdoc, hl, _, hg, _, hpe⟩ := ARSOVreme_mem g u doc L h p hp
    refine ⟨l, i, href, c, hdoc, hl, hg, ?_, hpe⟩
    rw [← hid, hpe]
  · intro hcode p hp hid
    obtain ⟨q, _, hresp, _⟩ := hfound ⟨p, hp, hid⟩
    rw [hresp] at hcode
    cases hcode
  · intro hall
    rw [vremeHandler_not_found L id hall]

/-- C9: every record `p` of a list returned by `ARSOVreme` has URL "/vreme/" followed by
its ID, and the handler run over that list with `p.ID` answers 200, never 404, with the
first record of the list whose ID equals `p.ID`; that record is `p` itself when no
earlier record has the same ID. -/
theorem published_url_resolves (doc : Option (List (Option String))) (L : List (Postaja F))
    (h : (ARSOVreme g u doc).result = some L) (p : Postaja F) (hp : p ∈ L) :
    p.URL = "/vreme/" ++ p.ID
    ∧ (∃ (k : Nat) (q : Postaja F), L[k]? = some q ∧ q.ID = p.ID
        ∧ (∀ j : Nat, j < k → ∀ x : Postaja F, L[j]? = some x → x.ID ≠ p.ID)
        ∧ vremeHandler L p.ID = ⟨200, .postaja q⟩)
    ∧ (vremeHandler L p.ID).code ≠ 404
    ∧ (∀ k : Nat, L[k]? = some p → (∀ j : Nat, j < k → ∀ x : Postaja F, L[j]? = some x → x.ID ≠ p.ID) →
        vremeHandler L p.ID = ⟨200, .postaja p⟩) := by
  obtain ⟨k, q, hk, hid, hfirst⟩ := exists_first L p.ID ⟨p, hp, rfl⟩
  have hresp := vremeHandler_first L p.ID k q hk hid hfirst
  refine ⟨?_, ⟨k, q, hk, hid, hfirst, hresp⟩, ?_, ?_⟩
  · obtain ⟨l, i, href, c, _, _, _, _, _, hpe⟩ := ARSOVreme_mem g u doc L h p hp
    rw [hpe]
  · rw [hresp]
    show (200 : Nat) ≠ 404
    decide
  · intro k2 hk2 hfirst2
    exact vremeHandler_first L p.ID k2 p hk2 rfl hfirst2

theorem hasInfix_host (h : List Char) :
    hasInfix "observationAms".data ("http://meteo.arso.gov.si/".data ++ h)
      = hasInfix "observationAms".data h := by
  cases h with
  | nil => decide
  | cons c t => simp [hasInfix, List.isPrefixOf]

theorem Contains_host (href : String) :
    Contains ("http://meteo.arso.gov.si/" ++ href) "observationAms"
      = Contains href "observationAms" := by
  unfold Contains
  rw [String.data_append]
  exact hasInfix_host _

/-- C10: the resolved URL, the host followed by the href, contains "observationAms"
exactly when the href does, so every record of a list returned by `ARSOVreme` comes from
a discovered, fetched link and has Auto true exactly when that link's href contains
"observationAms". -/
theorem Auto_iff_href (doc : Option (List (Option String))) (L : List (Postaja F))
    (h : (ARSOVreme g u doc).result = some L) :
    (∀ href : String, Contains ("http://meteo.arso.gov.si/" ++ href) "observationAms" = true
        ↔ Contains href "observationAms" = true)
    ∧ ∀ p ∈ L, ∃ l i href c, doc = some l ∧ l[i]? = some (some href)
        ∧ g i ("http://meteo.arso.gov.si/" ++ href) = .ok c
        ∧ p = { u c with
                ID := getMD5Hash (u c).ID
                URL := "/vreme/" ++ getMD5Hash (u c).ID
                Auto := Contains href "observationAms" }
        ∧ (p.Auto = true ↔ Contains href "observationAms" = true) := by
  refine ⟨fun href => by rw [Contains_host], ?_⟩
  intro p hp
  obtain ⟨l, i, href, c, hdoc, hl, _, hg, _, hpe⟩ := ARSOVreme_mem g u doc L h p hp
  rw [Contains_host] at hpe
  exact ⟨l, i, href, c, hdoc, hl, hg, hpe, by rw [hpe]⟩

end HandlerClaims

/-! ## The claims on a sample page -/

theorem sample_run :
    ARSOVreme sampleGet sampleUnmarshal (some samplePage)
      = ⟨some sampleVreme,
         [(0, "http://meteo.arso.gov.si/ab.xml"), (3, "http://meteo.arso.gov.si/a.xml"),
          (4, "http://meteo.arso.gov.si/observationAms_x.xml"),
          (5, "http://meteo.arso.gov.si/ab.xml")],
         ["Skip ab_si_.xml"]⟩ := by
  decide!

theorem sample_run_failing :
    ARSOVreme sampleGet sampleUnmarshal (some samplePageFailing)
      = ⟨none,
         [(0, "http://meteo.arso.gov.si/ab.xml"), (3, "http://meteo.arso.gov.si/a.xml"),
          (4, "http://meteo.arso.gov.si/observationAms_x.xml"),
          (5, "http://meteo.arso.gov.si/ab.xml"), (7, "http://meteo.arso.gov.si/cd.xml")],
         ["Skip ab_si_.xml", "Skip media.xml", "dial tcp: i/o timeout"]⟩ := by
  decide!

theorem sample_run_unreached :
    ARSOVreme sampleGet sampleUnmarshal (some samplePageUnreached)
        = ARSOVreme sampleGet sampleUnmarshal (some samplePageFailing)
    ∧ samplePageUnreached[9]? = some (some "gh_si_.xml")
    ∧ "Skip gh_si_.xml"
        ∉ (ARSOVreme sampleGet sampleUnmarshal (some samplePageUnreached)).log := by
  decide!

theorem sample_result :
    (ARSOVreme sampleGet sampleUnmarshal (some samplePage)).result = some sampleVreme := by
  rw [sample_run]

theorem sample_lookup :
    getMD5Hash "ab" = "187ef4436122d1cc2f40dc2b92f0eba0"
    ∧ vremeHandler sampleVreme "187ef4436122d1cc2f40dc2b92f0eba0"
        = ⟨200, .postaja { zeroPostaja with
            ID := "187ef4436122d1cc2f40dc2b92f0eba0", Title := "Postaja", Issued := "ab.xml0",
            URL := "/vreme/187ef4436122d1cc2f40dc2b92f0eba0" }⟩
    ∧ vremeHandler sampleVreme "ab"
        = ⟨404, .H [("Status", "Not found: ab")]⟩ := by
  decide!

/-- C3, as the spec words it, fails: the href "postaja.xml.bak" does not end with ".xml",
yet it contains ".xml" and neither exclusion substring, so its document is fetched and its
station is in the output. -/
theorem xml_marker_inside_href :
    HasSuffix "postaja.xml.bak" ".xml" = false
    ∧ ARSOVreme sampleGet sampleUnmarshal (some [some "postaja.xml.bak"])
      = ⟨some [{ zeroPostaja with
                  ID := getMD5Hash "postaja", Title := "Postaja", Issued := "postaja.xml.bak0",
                  URL := "/vreme/" ++ getMD5Hash "postaja" }],
         [(0, "http://meteo.arso.gov.si/postaja.xml.bak")], []⟩ := by
  decide!

/-- C3, an instance: anchor 6 of the longer sample page holds a media asset; it is reached,
so it is logged as skipped although the run is ended by the GET for anchor 7. -/
theorem skipped_link_not_fetched_witness :
    samplePageFailing[6]? = some (some "media.xml")
    ∧ Contains "media.xml" "media" = true
    ∧ (ARSOVreme sampleGet sampleUnmarshal (some samplePageFailing)).result = none
    ∧ (∀ url, (6, url) ∉ (ARSOVreme sampleGet sampleUnmarshal (some samplePageFailing)).gets)
    ∧ "Skip " ++ "media.xml"
        ∈ (ARSOVreme sampleGet sampleUnmarshal (some samplePageFailing)).log :=
  have h := skipped_link_not_fetched sampleGet sampleUnmarshal samplePageFailing 6 "media.xml"
    rfl (Or.inr (Or.inl (by decide)))
  have hreach : ∀ (j : Nat) (href2 e : String), j < 6 →
      samplePageFailing[j]? = some (some href2) → qualifies href2 = true →
      sampleGet j ("http://meteo.arso.gov.si/" ++ href2) ≠ .error e := by
    intro j href2 e hj _ _ hg
    have h7 : j ≠ 7 := by omega
    rw [sampleGet, if_neg h7] at hg
    cases hg
  ⟨rfl, by decide, by rw [sample_run_failing], h.1, h.2.2.2.1 hreach⟩

/-- C4, an instance: lookups over the stations of the sample page. -/
theorem vreme_lookup_witness :
    (ARSOVreme sampleGet sampleUnmarshal (some samplePage)).result = some sampleVreme
    ∧ ((vremeHandler sampleVreme "ab").code = 404 ↔ ∀ p ∈ sampleVreme, p.ID ≠ "ab")
    ∧ ((∀ p ∈ sampleVreme, p.ID ≠ "ab") →
        vremeHandler sampleVreme "ab" = ⟨404, .H [("Status", "Not found: " ++ "ab")]⟩) :=
  have h := vreme_lookup sampleGet sampleUnmarshal (some samplePage) sampleVreme "ab"
    sample_result
  ⟨sample_result, h.2.2.1, h.2.1⟩

/-- C5, an instance: every qualifying link of the sample page is fetched. -/
theorem ARSOVreme_all_fetched_witness :
    (∀ i href, samplePage[i]? = some (some href) → qualifies href = true →
      ∃ c, sampleGet i ("http://meteo.arso.gov.si/" ++ href) = .ok c)
    ∧ (ARSOVreme sampleGet sampleUnmarshal (some samplePage)).result
        = some (samplePage.enum.filterMap
            (fun x => stationOf sampleGet sampleUnmarshal x.1 x.2)) :=
  have hall : ∀ i href, samplePage[i]? = some (some href) → qualifies href = true →
      ∃ c, sampleGet i ("http://meteo.arso.gov.si/" ++ href) = .ok c := by
    intro i href hi _
    have h7 : i ≠ 7 := by
      rintro rfl
      simp [samplePage] at hi
    exact ⟨_, if_neg h7⟩
  ⟨hall, (ARSOVreme_all_fetched sampleGet sampleUnmarshal samplePage hall).1⟩

/-- C7, an instance: the GET for anchor 7 of the longer sample page fails, and the run
returns no list. -/
theorem ARSOVreme_fatal_iff_witness :
    samplePageFailing[7]? = some (some "cd.xml")
    ∧ (ARSOVreme sampleGet sampleUnmarshal (some samplePageFailing)).result = none :=
  ⟨rfl, (ARSOVreme_fatal_iff sampleGet sampleUnmarshal samplePageFailing).1.mpr
    ⟨7, "cd.xml", "dial tcp: i/o timeout", rfl, by decide, rfl⟩⟩

/-- C9, an instance: the third station of the sample page shares its identifier with the
first, so its published URL resolves to the first. -/
theorem published_url_resolves_witness :
    sampleVreme[2]? = some { zeroPostaja with
        ID := getMD5Hash "ab", Title := "Postaja", Issued := "ab.xml5",
        URL := "/vreme/" ++ getMD5Hash "ab" }
    ∧ (vremeHandler sampleVreme (getMD5Hash "ab")).code ≠ 404
    ∧ vremeHandler sampleVreme (getMD5Hash "ab")
        = ⟨200, .postaja { zeroPostaja with
            ID := getMD5Hash "ab", Title := "Postaja", Issued := "ab.xml0",
            URL := "/vreme/" ++ getMD5Hash "ab" }⟩ :=
  have h := published_url_resolves sampleGet sampleUnmarshal (some samplePage) sampleVreme
    sample_result
    { zeroPostaja with
      ID := getMD5Hash "ab", Title := "Postaja", Issued := "ab.xml5",
      URL := "/vreme/" ++ getMD5Hash "ab" }
    (by simp [sampleVreme])
  ⟨rfl, h.2.2.1, by decide!⟩

/-- C10, an instance: the automated flags of the stations of the sample page. -/
theorem Auto_iff_href_witness :
    (Contains ("http://meteo.arso.gov.si/" ++ "observationAms_x.xml") "observationAms" = true
      ↔ Contains "observationAms_x.xml" "observationAms" = true)
    ∧ sampleVreme.map (fun p => p.Auto) = [false, true, false] :=
  have h := Auto_iff_href sampleGet sampleUnmarshal (some samplePage) sampleVreme sample_result
  ⟨h.1 "observationAms_x.xml", rfl⟩

end Arso
